import Mathlib

/-!
Verification of the push-protocol core of spokes-receive-pack.

Go strings are modelled as lists of characters (`GoStr`); raw byte streams on
the wire are modelled as lists of natural numbers below 256 (`List Nat`).
Each definition carries a comment naming the source function it embeds.
-/

set_option maxRecDepth 4000

/-- Go strings, modelled as lists of characters. -/
abbrev GoStr := List Char

/-- Conversion from a Lean string literal to the `GoStr` model. -/
def String.gs (s : String) : GoStr := s.data

namespace Spokes

/-- Constant `objectformat.NullOIDSHA1`: the 40-zero null object id. -/
def nullSHA1OID : GoStr := "0000000000000000000000000000000000000000".gs

/-- Constant `objectformat.NullOIDSHA256`: the 64-zero null object id. -/
def nullSHA256OID : GoStr :=
  "0000000000000000000000000000000000000000000000000000000000000000".gs

/-- The `command` struct of `spokes.go`: one ref-update request from the
client, together with its status fields. -/
structure command where
  refname : GoStr
  oldOID : GoStr
  newOID : GoStr
  err : GoStr
  reportFF : GoStr
deriving DecidableEq, Repr

/-- Method `command.isUpdate`: both sides non-null. -/
def command.isUpdate (c : command) : Bool :=
  (c.oldOID != nullSHA1OID && c.oldOID != nullSHA256OID) &&
    (c.newOID != nullSHA1OID && c.newOID != nullSHA256OID)

/-- Method `command.isDelete`: the new object id is a null OID. -/
def command.isDelete (c : command) : Bool :=
  c.newOID == nullSHA1OID || c.newOID == nullSHA256OID

/-- Function `isNegativeRef` from `spokes.go`: a rule starting with `!` is an unhide
rule; the stripped form drops the leading `!`. -/
def isNegativeRef (ref : GoStr) : Bool × GoStr :=
  if ("!".gs).isPrefixOf ref then (true, ref.drop 1) else (false, ref)

/-- The body of the loop of `isHiddenRef`: a matching rule overwrites the
accumulator with the polarity of the rule. -/
def hiddenStep (ref : GoStr) (isHidden : Bool) (hr : GoStr) : Bool :=
  if (isNegativeRef hr).2.isPrefixOf ref then !(isNegativeRef hr).1 else isHidden

/-- Function `isHiddenRef` from `spokes.go`: scan the rule list in order; the last
matching rule decides. -/
def isHiddenRef (ref : GoStr) (hiddenRefs : List GoStr) : Bool :=
  hiddenRefs.foldl (hiddenStep ref) false

/-- The rules whose stripped form is a prefix of `ref` (spec wording for the
hide-rule semantics; compared against `isHiddenRef`). -/
def matchingRules (ref : GoStr) (rules : List GoStr) : List GoStr :=
  rules.filter (fun hr => (isNegativeRef hr).2.isPrefixOf ref)

/-- Spec-side hidden-ref predicate: `ref` is hidden iff the last rule whose
stripped form is a prefix of `ref` is a hide rule (no leading `!`). -/
def isHiddenRefSpec (ref : GoStr) (rules : List GoStr) : Bool :=
  match (matchingRules ref rules).getLast? with
  | none => false
  | some hr => !(isNegativeRef hr).1

/-- The concrete rule list used by the spec's hide-rule examples. -/
def ghRules : List GoStr :=
  ["refs/pull/".gs, "refs/gh/".gs, "refs/__gh__".gs, "!refs/__gh__/svn".gs]

/-- The hide/unhide partition loop of `performReferenceDiscovery`
(`spokes.go`): zero-length rules are skipped; a leading `!` sends the
stripped rule to the unhide list, anything else to the hide list. -/
def hideRulesStep (acc : List GoStr × List GoStr) (rule : GoStr) :
    List GoStr × List GoStr :=
  if rule.length = 0 then acc
  else if rule.head? = some '!' then (acc.1, acc.2 ++ [rule.drop 1])
  else (acc.1 ++ [rule], acc.2)

/-- Partition of the hide-rule list into (hidden, unhidden) as done by
`performReferenceDiscovery`. -/
def partitionHideRules (rules : List GoStr) : List GoStr × List GoStr :=
  rules.foldl hideRulesStep ([], [])

/-- The command-marking step of `readCommands` (`spokes.go`): a parsed command
whose refname is hidden is pre-rejected with the `ng` status. -/
def readCommand (hiddenRefs : List GoStr) (oldOID newOID refname : GoStr) :
    command :=
  let c : command :=
    { refname := refname, oldOID := oldOID, newOID := newOID
      err := [], reportFF := [] }
  if isHiddenRef c.refname hiddenRefs then
    { c with reportFF := "ng".gs, err := "deny updating a hidden ref".gs }
  else c

end Spokes


namespace Spokes

/-! ## Packet framing (`internal/pktline/pktline.go` and `writePacketLine`)

Wire bytes are modelled as natural numbers (`List Nat`). -/

/-- Constant `pktline.MaxPayload`. -/
def MaxPayload : Nat := 65519

/-- Constant `pktline.HeaderSize`. -/
def HeaderSize : Nat := 4

/-- Constant `maxPacketDataLength` from `spokes.go`: the maximum data length accepted
by the packet writer. -/
def maxPacketDataLength : Nat := 65516

/-- One lowercase hex digit, as the byte Go's `%x` verb prints for a value
below 16. -/
def hexDigit (n : Nat) : Nat := if n < 10 then 48 + n else 87 + n

/-- The four bytes Go's `fmt.Fprintf(w, "%04x", n)` writes for `n < 65536`. -/
def encodeHex4 (n : Nat) : List Nat :=
  [hexDigit (n / 4096 % 16), hexDigit (n / 256 % 16),
   hexDigit (n / 16 % 16), hexDigit (n % 16)]

/-- One hex digit as read by `strconv.ParseUint(_, 16, 16)` (both cases
accepted). -/
def decodeHexDigit (b : Nat) : Option Nat :=
  if 48 ≤ b ∧ b ≤ 57 then some (b - 48)
  else if 97 ≤ b ∧ b ≤ 102 then some (b - 87)
  else if 65 ≤ b ∧ b ≤ 70 then some (b - 55)
  else none

/-- The parse `Pktline.Size` performs on the four length bytes via
`strconv.ParseUint(string(pl.payloadSize), 16, 16)`. -/
def parseSize4 (bs : List Nat) : Option Nat :=
  match bs with
  | [a, b, c, d] =>
    match decodeHexDigit a, decodeHexDigit b, decodeHexDigit c, decodeHexDigit d with
    | some x, some y, some z, some w => some (((x * 16 + y) * 16 + z) * 16 + w)
    | _, _, _, _ => none
  | _ => none

/-- Model of `bytes.IndexByte`: index of the first occurrence of `b`, if any. -/
def indexOfByte (b : Nat) : List Nat → Option Nat
  | [] => none
  | x :: xs => if x = b then some 0 else (indexOfByte b xs).map (· + 1)

/-- The observable state of a `Pktline` after a successful `Read`. -/
structure Pktline where
  payloadSize : List Nat
  Payload : List Nat
  CapabilitiesPayload : List Nat
  processedCapabilities : Bool
deriving DecidableEq, Repr

/-- The errors `Pktline.Read` can produce. -/
inductive ReadError where
  | eof
  | unexpectedEOF
  | illformedSize
  | invalidLength (n : Nat)
deriving DecidableEq, Repr

/-- Method `Pktline.Read` from `internal/pktline/pktline.go`, as a function of the
`processedCapabilities` flag carried over from previous reads and of the
input stream.  Returns the packet together with the unconsumed input.
The Go method mutates `pl` in place; the returned `processedCapabilities`
field is the flag as left for the next read.  (The Go `CapabilitiesPayload`
field is not reset between reads; here it holds the segment split off by
this read, or `[]`.) -/
def pktlineRead (pc : Bool) (input : List Nat) :
    Except ReadError (Pktline × List Nat) :=
  match input with
  | [] => .error .eof
  | [_] | [_, _] | [_, _, _] => .error .unexpectedEOF
  | a :: b :: c :: d :: rest =>
    match parseSize4 [a, b, c, d] with
    | none => .error .illformedSize
    | some size =>
      if HeaderSize + MaxPayload + 1 < size then .error (.invalidLength size)
      else if size ≤ HeaderSize then
        .ok (⟨[a, b, c, d], [], [], pc⟩, rest)
      else if rest.length < size - 4 then .error .unexpectedEOF
      else
        let payload := rest.take (size - 4)
        let rest2 := rest.drop (size - 4)
        if pc then .ok (⟨[a, b, c, d], payload, [], true⟩, rest2)
        else
          match indexOfByte 0 payload with
          | some i =>
            .ok (⟨[a, b, c, d], payload.take i, payload.drop (i + 1), true⟩, rest2)
          | none => .ok (⟨[a, b, c, d], payload, [], false⟩, rest2)

/-- Function `writePacketLine` from `spokes.go`: write the 4-hex-digit length `4+len`
followed by the data; data longer than `maxPacketDataLength` is refused. -/
def writePacketLine (data : List Nat) : Option (List Nat) :=
  if maxPacketDataLength < data.length then none
  else some (encodeHex4 (4 + data.length) ++ data)

/-- The packet produced by reading a payload `payload` in capability-flag
state `pc`: with the flag set the payload is untouched; with the flag clear
it is split at the first NUL, if any. -/
def framePkt (pc : Bool) (payload hdr : List Nat) : Pktline :=
  if pc then ⟨hdr, payload, [], true⟩
  else
    match indexOfByte 0 payload with
    | some i => ⟨hdr, payload.take i, payload.drop (i + 1), true⟩
    | none => ⟨hdr, payload, [], false⟩

end Spokes

namespace Spokes

/-! ## Capability advertisement (`Exec`, `supportedCapabilities`,
`pktline.IsSafeCapabilityValue`) -/

/-- The object formats `objectformat.GetObjectFormat` accepts. -/
inductive ObjectFormat where
  | sha1
  | sha256
deriving DecidableEq, Repr

/-- The string form of the object format (what `%s` prints for it). -/
def ObjectFormat.toStr : ObjectFormat → GoStr
  | .sha1 => "sha1".gs
  | .sha256 => "sha256".gs

/-- Function `supportedCapabilities` from `spokes.go`. -/
def supportedCapabilities (of : ObjectFormat) : GoStr :=
  "report-status report-status-v2 delete-refs side-band-64k ofs-delta atomic object-format=".gs
    ++ of.toStr ++ " quiet".gs

/-- Function `pktline.IsSafeCapabilityValue`: false iff some byte is a space, CR, LF
or tab. -/
def IsSafeCapabilityValue : GoStr → Bool
  | [] => true
  | b :: rest =>
    if b = ' ' ∨ b = '\r' ∨ b = '\n' ∨ b = '\t' then false
    else IsSafeCapabilityValue rest

/-- The capability-line composition of `Exec` (`spokes.go` lines 88-96):
baseline plus agent, then `session-id` when the request id is non-empty and
safe, then `push-options` when `receive.advertisePushOptions` is `true`. -/
def capabilitiesLine (of : ObjectFormat)
    (version requestID advertisePushOptions : GoStr) : GoStr :=
  let line := supportedCapabilities of
    ++ " agent=github/spokes-receive-pack-".gs ++ version
  let line2 :=
    if requestID ≠ [] ∧ IsSafeCapabilityValue requestID = true then
      line ++ " session-id=".gs ++ requestID
    else line
  if advertisePushOptions = "true".gs then line2 ++ " push-options".gs else line2

/-! ## The push state machine (`spokesReceivePack.execute`)

The phases that the claims are about are embedded as pure functions over the
parsed command list; the external child processes (`index-pack`, `rev-list`,
`merge-base`) are oracles supplied as part of the session. -/

/-- Results of the external child processes invoked by `execute`. -/
structure Oracles where
  /-- Result of `git index-pack` (`readPack`): `none` on success. -/
  unpackErr : Option GoStr
  /-- Exit status of the collective `rev-list` connectivity check. -/
  connectivityOK : Bool
  /-- Exit status of `performCheckConnectivityOnObject` for a given oid. -/
  objectOK : GoStr → Bool
  /-- Exit status of `git merge-base --is-ancestor old new`. -/
  ffOK : GoStr → GoStr → Bool

/-- One push session as seen by `execute` after `readCommands` has parsed
the command list (with hidden-ref pre-rejections already applied). -/
structure Session where
  commands0 : List command
  /-- Whether the client advertised `push-options`. -/
  pushOptionsDefined : Bool
  /-- Number of push-option packets read by `dumpPushOptions`. -/
  pushOptionsCount : Int
  /-- Config `receive.pushOptionsCountLimit` as parsed by `getPushOptionsCountLimit`. -/
  optionsCountLimit : Int
  /-- Whether the client advertised `report-status` or `report-status-v2`. -/
  reportStatus : Bool
  /-- Whether `receive.reportStatusFF` is `"true"`. -/
  rsff : Bool
  oracles : Oracles

/-- The externally visible side effects of `execute` that the claims track. -/
inductive Action where
  | makeQuarantineDirs
  | runIndexPack
deriving DecidableEq, Repr

/-- What `execute` produced: ordered side effects, final command statuses,
report lines, and the error returned to `Exec` (which exits 1 on `some`). -/
structure ExecOutcome where
  actions : List Action
  finalCommands : List command
  report : List GoStr
  execErr : Option GoStr
deriving Repr

/-- Lines 194-199 of `execute`: when the push-options count limit is positive
and exceeded, every command is marked `ng push options count exceeds
maximum`. -/
def markPushOptionsLimit (optionsCountLimit pushOptionsCount : Int)
    (cs : List command) : List command :=
  if 0 < optionsCountLimit ∧ optionsCountLimit < pushOptionsCount then
    cs.map (fun c =>
      { c with err := "push options count exceeds maximum".gs
               reportFF := "ng".gs })
  else cs

/-- Function `includeNonDeletes` from `spokes.go`: true iff some command's new OID is
non-null. -/
def includeNonDeletes (cs : List command) : Bool :=
  cs.any (fun c => c.newOID != nullSHA1OID && c.newOID != nullSHA256OID)

/-- Function `readPack`: nothing is read when every command is a delete; otherwise the
result is `index-pack`'s outcome. -/
def readPackResult (o : Oracles) (cs : List command) : Option GoStr :=
  if includeNonDeletes cs then o.unpackErr else none

/-- Function `commandsForConnectivityCheck` from `spokes.go`: the commands with empty
error status that are not deletes. -/
def commandsForConnectivityCheck (cs : List command) : List command :=
  cs.filter (fun c => c.err == ([] : GoStr) && !c.isDelete)

/-- The oids the `write-new-values` stage of `performCheckConnectivity` feeds
to `rev-list --stdin`: the loop iterates over ALL of `commands`. -/
def connectivityCheckStdin (cs : List command) : List GoStr :=
  cs.map (fun c => c.newOID)

/-- Whether `performCheckConnectivity` returns an error: it returns `nil`
immediately when every command was already rejected or is a delete, and
otherwise reports the collective `rev-list` outcome. -/
def performCheckConnectivityFails (o : Oracles) (cs : List command) : Bool :=
  if (commandsForConnectivityCheck cs).isEmpty then false
  else !o.connectivityOK

/-- The per-command adjustment loop of `execute` (lines 222-245): rejected
commands are skipped; on a collective connectivity failure each non-delete is
re-checked individually; surviving updates get `ff`/`nf` when
`receive.reportStatusFF` is enabled, and `ok` otherwise. -/
def adjustCommand (o : Oracles) (collectiveErr rsff : Bool) (c : command) :
    command :=
  if c.err ≠ [] then c
  else if collectiveErr && !c.isDelete && !(o.objectOK c.newOID) then
    { c with err := "missing necessary objects".gs, reportFF := "ng".gs }
  else if c.isUpdate && rsff then
    { c with reportFF := if o.ffOK c.oldOID c.newOID then "ff".gs else "nf".gs }
  else { c with reportFF := "ok".gs }

/-- Function `writeReport` from `spokes.go`: the unpack line followed by one status
line per command, in order. -/
def writeReport (unpackOK : Bool) (cs : List command) : List GoStr :=
  (if unpackOK then ["unpack ok\n".gs] else ["unpack index-pack failed\n".gs])
    ++ cs.map (fun c =>
      if c.err ≠ [] then
        "ng ".gs ++ c.refname ++ " ".gs ++ c.err ++ "\n".gs
      else c.reportFF ++ " ".gs ++ c.refname ++ "\n".gs)

/-- The command list after the push-options limit marking of `execute`
(the client's count is 0 unless the `push-options` capability was sent). -/
def markedCommands (s : Session) : List command :=
  markPushOptionsLimit s.optionsCountLimit
    (if s.pushOptionsDefined then s.pushOptionsCount else 0) s.commands0

/-- The side effects of the pack-intake phase: `makeQuarantineDirs` is
called unconditionally (line 205), then `readPack` runs `index-pack` only
when some command is a non-delete. -/
def executeActions (s : Session) : List Action :=
  [Action.makeQuarantineDirs]
    ++ (if includeNonDeletes (markedCommands s) then [Action.runIndexPack] else [])

/-- Lines 210-214 of `execute`: on an unpack error every command is marked. -/
def markUnpackError (e : GoStr) (cs : List command) : List command :=
  cs.map (fun c =>
    { c with err := "error processing packfiles: ".gs ++ e
             reportFF := "ng".gs })

/-- The final command statuses on the unpack-success path of `execute`. -/
def finalCommandsOK (s : Session) : List command :=
  (markedCommands s).map
    (adjustCommand s.oracles
      (performCheckConnectivityFails s.oracles (markedCommands s)) s.rsff)

/-- The tail of `execute` (lines 177-265) for a session whose reference
discovery and command reading already succeeded: push-options limit marking,
unconditional quarantine-directory creation, pack intake gated on
non-deletes, connectivity checking, reporting, and the returned error. -/
def executeModel (s : Session) : ExecOutcome :=
  if s.commands0 = [] then ⟨[], [], [], none⟩
  else
    match readPackResult s.oracles (markedCommands s) with
    | some e =>
      ⟨executeActions s, markUnpackError e (markedCommands s),
        if s.reportStatus then
          writeReport false (markUnpackError e (markedCommands s))
        else [],
        some ("index-pack: ".gs ++ e)⟩
    | none =>
      ⟨executeActions s, finalCommandsOK s,
        if s.reportStatus then writeReport true (finalCommandsOK s) else [],
        none⟩

/-- The exit code `Exec` returns as a function of `execute`'s result. -/
def execExitCode (s : Session) : Nat :=
  match (executeModel s).execErr with
  | some _ => 1
  | none => 0

end Spokes

namespace Spokes

/-! ## Concrete fixtures for counterexamples and witnesses -/

/-- A 40-hex object id. -/
def oidA : GoStr := "aaaaaaaaaaaaaaaaaaaaaaaaaaaaaaaaaaaaaaaa".gs

/-- A 40-hex object id. -/
def oidB : GoStr := "bbbbbbbbbbbbbbbbbbbbbbbbbbbbbbbbbbbbbbbb".gs

/-- A 40-hex object id. -/
def oidC : GoStr := "cccccccccccccccccccccccccccccccccccccccc".gs

/-- A branch-creation command (old side null, new side non-null). -/
def cCreate : command :=
  { refname := "refs/heads/new".gs, oldOID := nullSHA1OID, newOID := oidB
    err := [], reportFF := [] }

/-- A command pre-rejected by `readCommands` for targeting a hidden ref. -/
def cHidden : command :=
  { refname := "refs/__hidden__/x".gs, oldOID := nullSHA1OID, newOID := oidC
    err := "deny updating a hidden ref".gs, reportFF := "ng".gs }

/-- A branch-deletion command (new side null). -/
def cDelete : command :=
  { refname := "refs/heads/gone".gs, oldOID := oidC, newOID := nullSHA1OID
    err := [], reportFF := [] }

/-- A branch-update command with empty error status. -/
def cUpdate : command :=
  { refname := "refs/heads/main".gs, oldOID := oidA, newOID := oidB
    err := [], reportFF := [] }

/-- Oracles for a push on which every external child process succeeds. -/
def oraclesOK : Oracles :=
  { unpackErr := none, connectivityOK := true
    objectOK := fun _ => true, ffOK := fun _ _ => true }

/-- A session pushing one new branch next to one hidden-ref rejection, with
all child processes succeeding. -/
def sessionHidden : Session :=
  { commands0 := [cCreate, cHidden], pushOptionsDefined := false
    pushOptionsCount := 0, optionsCountLimit := 0, reportStatus := true
    rsff := false, oracles := oraclesOK }

/-- A session whose only command is a branch deletion. -/
def sessionAllDelete : Session :=
  { commands0 := [cDelete], pushOptionsDefined := false
    pushOptionsCount := 0, optionsCountLimit := 0, reportStatus := true
    rsff := false, oracles := oraclesOK }

/-- A session with `receive.pushOptionsCountLimit = 2` that received three
push-option packets alongside one branch creation. -/
def sessionOptions : Session :=
  { commands0 := [cCreate], pushOptionsDefined := true
    pushOptionsCount := 3, optionsCountLimit := 2, reportStatus := true
    rsff := false, oracles := oraclesOK }

/-- The command list of a push combining one update and one deletion. -/
def cmdsUpdateDelete : List command := [cUpdate, cDelete]

end Spokes

namespace Spokes

/-! ## Hidden-ref rule proofs -/

theorem isHiddenRef_concat (ref hr : GoStr) (rules : List GoStr) :
    isHiddenRef ref (rules ++ [hr]) = hiddenStep ref (isHiddenRef ref rules) hr := by
  simp [isHiddenRef, List.foldl_append]

theorem matchingRules_concat (ref hr : GoStr) (rules : List GoStr) :
    matchingRules ref (rules ++ [hr]) =
      matchingRules ref rules ++
        (if (isNegativeRef hr).2.isPrefixOf ref then [hr] else []) := by
  simp only [matchingRules, List.filter_append, List.filter]
  split_ifs with h <;> simp [h]

/-- The loop of `isHiddenRef` computes the spec's last-matching-rule
semantics. -/
theorem isHiddenRef_eq_spec (ref : GoStr) (rules : List GoStr) :
    isHiddenRef ref rules = isHiddenRefSpec ref rules := by
  induction rules using List.reverseRecOn with
  | nil => rfl
  | append_singleton l hr ih =>
    rw [isHiddenRef_concat, ih]
    unfold isHiddenRefSpec
    rw [matchingRules_concat]
    by_cases h : (isNegativeRef hr).2.isPrefixOf ref = true
    · simp [h, hiddenStep, List.getLast?_concat]
    · simp only [h]
      simp [hiddenStep, h]

end Spokes

namespace Spokes

/-- Claim C6: for every refname and rule list, `isHiddenRef` returns true iff
the last rule whose stripped form is a prefix of the refname is a hide rule,
and on the rule list `[refs/pull/, refs/gh/, refs/__gh__, !refs/__gh__/svn]`
the refname `refs/__gh__/pull/1/rebase` is hidden while
`refs/__gh__/svn/branch-1` and `refs/heads/main` are not. -/
theorem C6_hidden_ref_last_match :
    (∀ (ref : GoStr) (rules : List GoStr),
        isHiddenRef ref rules = isHiddenRefSpec ref rules) ∧
      isHiddenRef ("refs/__gh__/pull/1/rebase".gs) ghRules = true ∧
      isHiddenRef ("refs/__gh__/svn/branch-1".gs) ghRules = false ∧
      isHiddenRef ("refs/heads/main".gs) ghRules = false :=
  ⟨isHiddenRef_eq_spec, by decide, by decide, by decide⟩

/-- Starting from a hidden accumulator, a rule list without any negated
matching rule keeps the refname hidden. -/
theorem foldl_hiddenStep_true (ref : GoStr) (l : List GoStr)
    (h : ∀ hr ∈ l, ¬((isNegativeRef hr).1 = true ∧
        (isNegativeRef hr).2.isPrefixOf ref = true)) :
    List.foldl (hiddenStep ref) true l = true := by
  induction l with
  | nil => rfl
  | cons hr t ih =>
    have hstep : hiddenStep ref true hr = true := by
      unfold hiddenStep
      split_ifs with hm
      · cases hneg : (isNegativeRef hr).1
        · rfl
        · exact absurd ⟨hneg, hm⟩ (h hr (by simp))
      · rfl
    rw [List.foldl_cons, hstep]
    exact ih (fun x hx => h x (by simp [hx]))

end Spokes

namespace Spokes

/-- The hide-rule partition fold ignores zero-length rules. -/
theorem foldl_hideRulesStep_filter (rules : List GoStr) :
    ∀ acc, List.foldl hideRulesStep acc rules =
      List.foldl hideRulesStep acc (rules.filter (fun r => r.length != 0)) := by
  induction rules with
  | nil => intro acc; rfl
  | cons r t ih =>
    intro acc
    by_cases h : r.length = 0
    · have hr : hideRulesStep acc r = acc := by unfold hideRulesStep; simp [h]
      simp only [List.filter_cons, h]
      simp only [List.foldl_cons, hr]
      exact ih acc
    · simp only [List.filter_cons, h]
      simp only [bne_iff_ne, ne_eq, h, not_false_eq_true, if_pos, List.foldl_cons]
      exact ih (hideRulesStep acc r)

/-- Claim C10: an empty hide rule matches every refname — if the rule list
contains the empty string as a non-negated rule with no later negated rule
matching `ref`, then `isHiddenRef` returns true; `readCommands` therefore
pre-rejects such a command with `ng deny updating a hidden ref`; reference
discovery, in contrast, skips zero-length rules when partitioning the
hide/unhide lists, so advertisement is unaffected by the empty rule. -/
theorem C10_empty_hide_rule :
    (∀ (ref : GoStr) (l₁ l₂ : List GoStr),
        (∀ hr ∈ l₂, ¬((isNegativeRef hr).1 = true ∧
            (isNegativeRef hr).2.isPrefixOf ref = true)) →
        isHiddenRef ref (l₁ ++ ([] : GoStr) :: l₂) = true) ∧
      (∀ (rules : List GoStr) (oldOID newOID refname : GoStr),
        isHiddenRef refname rules = true →
        (readCommand rules oldOID newOID refname).err =
            "deny updating a hidden ref".gs ∧
          (readCommand rules oldOID newOID refname).reportFF = "ng".gs) ∧
      (∀ rules : List GoStr,
        partitionHideRules rules =
          partitionHideRules (rules.filter (fun r => r.length != 0))) := by
  refine ⟨?_, ?_, ?_⟩
  · intro ref l₁ l₂ h
    unfold isHiddenRef
    rw [List.foldl_append, List.foldl_cons]
    have hmid : hiddenStep ref (List.foldl (hiddenStep ref) false l₁) [] = true := by
      unfold hiddenStep isNegativeRef
      simp [List.isPrefixOf]
    rw [hmid]
    exact foldl_hiddenStep_true ref l₂ h
  · intro rules oldOID newOID refname h
    unfold readCommand
    simp [h]
  · intro rules
    exact foldl_hideRulesStep_filter rules ([], [])

/-- Witness for C10 at a concrete input: the rule list containing only the
empty rule hides `refs/heads/main`, and the corresponding command is
pre-rejected. -/
theorem C10_empty_hide_rule_witness :
    isHiddenRef ("refs/heads/main".gs) [([] : GoStr)] = true ∧
      (readCommand [([] : GoStr)] oidA oidB ("refs/heads/main".gs)).err =
        "deny updating a hidden ref".gs := by
  have h1 := C10_empty_hide_rule.1 ("refs/heads/main".gs) [] [] (by simp)
  exact ⟨h1, (C10_empty_hide_rule.2.1 [[]] oidA oidB ("refs/heads/main".gs) h1).1⟩

end Spokes

namespace Spokes

/-- Predicate `IsSafeCapabilityValue` holds exactly when no character is a space, CR,
LF or tab. -/
theorem isSafeCapabilityValue_iff (v : GoStr) :
    IsSafeCapabilityValue v = true ↔
      ∀ c ∈ v, ¬(c = ' ' ∨ c = '\r' ∨ c = '\n' ∨ c = '\t') := by
  induction v with
  | nil => simp [IsSafeCapabilityValue]
  | cons b t ih =>
    unfold IsSafeCapabilityValue
    split_ifs with hb
    · constructor
      · intro h; cases h
      · intro h; exact absurd hb (h b (by simp))
    · rw [ih]
      constructor
      · intro h c hc
        rcases List.mem_cons.mp hc with rfl | hc
        · exact hb
        · exact h c hc
      · intro h c hc
        exact h c (by simp [hc])

theorem quietAgent (x : GoStr) :
    " quiet".gs ++ (" agent=github/spokes-receive-pack-".gs ++ x) =
      " quiet agent=github/spokes-receive-pack-".gs ++ x := by
  rw [← List.append_assoc]
  rfl

/-- Claim C7: the advertised capability line is the baseline (with the
repository's object format and the agent version) with ` session-id=<id>`
appended iff the request id is non-empty and contains none of space, CR, LF,
tab, and ` push-options` appended iff `receive.advertisePushOptions` equals
`"true"`. -/
theorem C7_capabilities_line (of : ObjectFormat)
    (version requestID apo : GoStr) :
    capabilitiesLine of version requestID apo =
      "report-status report-status-v2 delete-refs side-band-64k ofs-delta atomic object-format=".gs
          ++ of.toStr ++ " quiet agent=github/spokes-receive-pack-".gs ++ version
        ++ (if requestID ≠ [] ∧
              (∀ c ∈ requestID, ¬(c = ' ' ∨ c = '\r' ∨ c = '\n' ∨ c = '\t'))
            then " session-id=".gs ++ requestID else [])
        ++ (if apo = "true".gs then " push-options".gs else []) := by
  unfold capabilitiesLine supportedCapabilities
  dsimp only
  have hiff : (requestID ≠ [] ∧ IsSafeCapabilityValue requestID = true) ↔
      (requestID ≠ [] ∧
        ∀ c ∈ requestID, ¬(c = ' ' ∨ c = '\r' ∨ c = '\n' ∨ c = '\t')) := by
    rw [isSafeCapabilityValue_iff]
  by_cases hsafe : requestID ≠ [] ∧ IsSafeCapabilityValue requestID = true
  · rw [if_pos hsafe, if_pos (hiff.mp hsafe)]
    by_cases hapo : apo = "true".gs
    · rw [if_pos hapo, if_pos hapo]
      simp [List.append_assoc, quietAgent]
    · rw [if_neg hapo, if_neg hapo]
      simp [List.append_assoc, quietAgent]
  · rw [if_neg hsafe, if_neg (fun h => hsafe (hiff.mpr h))]
    by_cases hapo : apo = "true".gs
    · rw [if_pos hapo, if_pos hapo]
      simp [List.append_assoc, quietAgent]
    · rw [if_neg hapo, if_neg hapo]
      simp [List.append_assoc, quietAgent]

end Spokes

namespace Spokes

theorem decodeHexDigit_hexDigit (k : Nat) (h : k < 16) :
    decodeHexDigit (hexDigit k) = some k := by
  interval_cases k <;> rfl

theorem parseSize4_encodeHex4 (n : Nat) (h : n < 65536) :
    parseSize4 (encodeHex4 n) = some n := by
  have e1 := decodeHexDigit_hexDigit (n / 4096 % 16) (Nat.mod_lt _ (by norm_num))
  have e2 := decodeHexDigit_hexDigit (n / 256 % 16) (Nat.mod_lt _ (by norm_num))
  have e3 := decodeHexDigit_hexDigit (n / 16 % 16) (Nat.mod_lt _ (by norm_num))
  have e4 := decodeHexDigit_hexDigit (n % 16) (Nat.mod_lt _ (by norm_num))
  simp only [encodeHex4, parseSize4, e1, e2, e3, e4, Option.some.injEq]
  omega

/-- The behaviour of `pktlineRead` on a stream starting with a well-formed
4-hex-digit length. -/
theorem pktlineRead_encodeHex4 (pc : Bool) (n : Nat) (data : List Nat)
    (h : n < 65536) :
    pktlineRead pc (encodeHex4 n ++ data) =
      if HeaderSize + MaxPayload + 1 < n then .error (.invalidLength n)
      else if n ≤ HeaderSize then .ok (⟨encodeHex4 n, [], [], pc⟩, data)
      else if data.length < n - 4 then .error .unexpectedEOF
      else .ok (framePkt pc (data.take (n - 4)) (encodeHex4 n),
        data.drop (n - 4)) := by
  have hsplit : encodeHex4 n ++ data =
      hexDigit (n / 4096 % 16) :: hexDigit (n / 256 % 16) ::
        hexDigit (n / 16 % 16) :: hexDigit (n % 16) :: data := rfl
  have hx : parseSize4 [hexDigit (n / 4096 % 16), hexDigit (n / 256 % 16),
      hexDigit (n / 16 % 16), hexDigit (n % 16)] = some n :=
    parseSize4_encodeHex4 n h
  rw [hsplit]
  simp only [pktlineRead, hx]
  split_ifs with h1 h2 h3 hpc
  · rfl
  · rfl
  · rfl
  · subst hpc
    rfl
  · have hpc2 : pc = false := by simpa using hpc
    subst hpc2
    unfold framePkt
    simp only [Bool.false_eq_true, if_false]
    cases indexOfByte 0 (List.take (n - 4) data) <;> rfl

end Spokes

namespace Spokes

/-- Reading one packet written as `length(4+|p|) ++ p` followed by more
stream bytes consumes exactly the packet and yields `framePkt`. -/
theorem pktlineRead_packet (pc : Bool) (p rest : List Nat)
    (hlen : p.length ≤ 65516) :
    pktlineRead pc (encodeHex4 (4 + p.length) ++ (p ++ rest)) =
      .ok (framePkt pc p (encodeHex4 (4 + p.length)), rest) := by
  rw [pktlineRead_encodeHex4 pc (4 + p.length) (p ++ rest) (by omega)]
  rw [if_neg (by unfold HeaderSize MaxPayload; omega)]
  by_cases hp : p = []
  · subst hp
    rw [if_pos (by simp [HeaderSize])]
    cases pc <;> rfl
  · have hlen0 : p.length ≠ 0 := fun h => hp (List.length_eq_zero.mp h)
    rw [if_neg (by unfold HeaderSize; omega)]
    have h4 : 4 + p.length - 4 = p.length := by omega
    rw [if_neg (by rw [h4, List.length_append]; omega)]
    rw [h4, List.take_left, List.drop_left]

/-- Claim C3 (counterexample): the payload consisting of one NUL byte writes
as `0005\x00`, but a fresh reader splits at the NUL and returns the empty
payload instead of the original one. -/
theorem C3_roundtrip_counterexample :
    writePacketLine [0] = some [48, 48, 48, 53, 0] ∧
      pktlineRead false [48, 48, 48, 53, 0] =
        .ok (⟨[48, 48, 48, 53], [], [], true⟩, []) ∧
      ([] : List Nat) ≠ [0] :=
  ⟨rfl, rfl, by simp⟩

/-- Claim C3 (amended): for every payload of at most 65516 bytes that
contains no NUL byte, writing it as a pkt-line and reading it back with a
fresh reader yields exactly the payload (if the payload contains a NUL, the
fresh reader truncates it at the first NUL and treats the tail as the
capability segment). -/
theorem C3_roundtrip (p : List Nat) (hlen : p.length ≤ 65516)
    (hnul : indexOfByte 0 p = none) :
    writePacketLine p = some (encodeHex4 (4 + p.length) ++ p) ∧
      pktlineRead false (encodeHex4 (4 + p.length) ++ p) =
        .ok (⟨encodeHex4 (4 + p.length), p, [], false⟩, []) := by
  constructor
  · unfold writePacketLine
    rw [if_neg (by unfold maxPacketDataLength; omega)]
  · have hread := pktlineRead_packet false p [] hlen
    rw [List.append_nil] at hread
    rw [hread]
    unfold framePkt
    simp [hnul]

/-- Witness for C3 at the concrete payload `hi`. -/
theorem C3_roundtrip_witness :
    writePacketLine [104, 105] = some [48, 48, 48, 54, 104, 105] ∧
      pktlineRead false [48, 48, 48, 54, 104, 105] =
        .ok (⟨[48, 48, 48, 54], [104, 105], [], false⟩, []) :=
  C3_roundtrip [104, 105] (by norm_num) rfl

/-- Claim C4 (counterexample): the first packet of the stream carries no NUL
byte, so the capability flag stays clear, and the second packet — whose
payload is `b\x00c` — is nevertheless split at its NUL. -/
theorem C4_capability_split_counterexample :
    pktlineRead false [48, 48, 48, 53, 97, 48, 48, 48, 55, 98, 0, 99] =
      .ok (⟨[48, 48, 48, 53], [97], [], false⟩, [48, 48, 48, 55, 98, 0, 99]) ∧
      pktlineRead false [48, 48, 48, 55, 98, 0, 99] =
        .ok (⟨[48, 48, 48, 55], [98], [99], true⟩, []) ∧
      ([98] : List Nat) ≠ [98, 0, 99] :=
  ⟨rfl, rfl, by simp⟩

/-- Claim C4 (amended): the capability split happens on the first packet
read whose payload contains a NUL byte, not necessarily the first packet:
with the flag already set the payload is returned unsplit; with the flag
clear, a NUL-free payload is returned whole and leaves the flag clear, while
a payload containing a NUL is truncated at the first NUL, the tail becomes
the capability segment, and the flag is set. -/
theorem C4_capability_split (p rest : List Nat) (hlen : p.length ≤ 65516) :
    (pktlineRead true (encodeHex4 (4 + p.length) ++ (p ++ rest)) =
        .ok (⟨encodeHex4 (4 + p.length), p, [], true⟩, rest)) ∧
      (indexOfByte 0 p = none →
        pktlineRead false (encodeHex4 (4 + p.length) ++ (p ++ rest)) =
          .ok (⟨encodeHex4 (4 + p.length), p, [], false⟩, rest)) ∧
      (∀ i, indexOfByte 0 p = some i →
        pktlineRead false (encodeHex4 (4 + p.length) ++ (p ++ rest)) =
          .ok (⟨encodeHex4 (4 + p.length), p.take i, p.drop (i + 1), true⟩,
            rest)) := by
  refine ⟨?_, ?_, ?_⟩
  · rw [pktlineRead_packet true p rest hlen]
    rfl
  · intro hnul
    rw [pktlineRead_packet false p rest hlen]
    unfold framePkt
    simp [hnul]
  · intro i hi
    rw [pktlineRead_packet false p rest hlen]
    unfold framePkt
    simp [hi]

/-- Witness for C4 at the concrete payload `a\x00b`. -/
theorem C4_capability_split_witness :
    pktlineRead false [48, 48, 48, 55, 97, 0, 98] =
      .ok (⟨[48, 48, 48, 55], [97], [98], true⟩, []) := by
  have h := (C4_capability_split [97, 0, 98] [] (by norm_num)).2.2 1 rfl
  simpa using h

/-- Claim C5 (counterexample): the length `0003` is not rejected — the read
succeeds with an empty payload — and the length `fff0` (65520 > 65519) does
not produce an invalid-length error either (here it fails for lack of
payload bytes instead). -/
theorem C5_length_errors_counterexample :
    pktlineRead false [48, 48, 48, 51] =
        .ok (⟨[48, 48, 48, 51], [], [], false⟩, []) ∧
      pktlineRead false [102, 102, 102, 48] = .error .unexpectedEOF ∧
      ReadError.unexpectedEOF ≠ ReadError.invalidLength 65520 :=
  ⟨rfl, rfl, by simp⟩

/-- Claim C5 (amended): every 4-hex-digit length up to 4 (including 1, 2, 3)
is accepted and read as an empty-payload packet; the invalid-length error is
returned exactly for lengths strictly greater than 65524 (= 4 + 65519 + 1),
and the malformed-length error arises only when a length byte is not a hex
digit. -/
theorem C5_length_validation (pc : Bool) (n : Nat) (data : List Nat)
    (h : n < 65536) :
    (n ≤ 4 → pktlineRead pc (encodeHex4 n ++ data) =
        .ok (⟨encodeHex4 n, [], [], pc⟩, data)) ∧
      (65524 < n → pktlineRead pc (encodeHex4 n ++ data) =
        .error (.invalidLength n)) ∧
      (4 < n → n ≤ 65524 → ¬data.length < n - 4 →
        pktlineRead pc (encodeHex4 n ++ data) =
          .ok (framePkt pc (data.take (n - 4)) (encodeHex4 n),
            data.drop (n - 4))) ∧
      (∀ (b₁ b₂ b₃ b₄ : Nat) (rest : List Nat), decodeHexDigit b₁ = none →
        pktlineRead pc (b₁ :: b₂ :: b₃ :: b₄ :: rest) =
          .error .illformedSize) := by
  refine ⟨?_, ?_, ?_, ?_⟩
  · intro hle
    rw [pktlineRead_encodeHex4 pc n data h]
    rw [if_neg (by unfold HeaderSize MaxPayload; omega),
      if_pos (by unfold HeaderSize; omega)]
  · intro hgt
    rw [pktlineRead_encodeHex4 pc n data h]
    rw [if_pos (by unfold HeaderSize MaxPayload; omega)]
  · intro hgt hle hdata
    rw [pktlineRead_encodeHex4 pc n data h]
    rw [if_neg (by unfold HeaderSize MaxPayload; omega),
      if_neg (by unfold HeaderSize; omega), if_neg hdata]
  · intro b₁ b₂ b₃ b₄ rest hb
    simp only [pktlineRead, parseSize4, hb]

/-- Witness for C5 at the concrete length `0003`. -/
theorem C5_length_validation_witness :
    pktlineRead false (encodeHex4 3 ++ []) =
      .ok (⟨encodeHex4 3, [], [], false⟩, []) :=
  (C5_length_validation false 3 [] (by norm_num)).1 (by norm_num)

end Spokes

namespace Spokes

/-- Marking commands for the push-options limit does not change which ones
are deletes. -/
theorem includeNonDeletes_markPushOptionsLimit (lim cnt : Int)
    (cs : List command) :
    includeNonDeletes (markPushOptionsLimit lim cnt cs) = includeNonDeletes cs := by
  unfold markPushOptionsLimit
  split_ifs with h
  · unfold includeNonDeletes
    rw [List.any_map]
    rfl
  · rfl

theorem includeNonDeletes_marked (s : Session) :
    includeNonDeletes (markedCommands s) = includeNonDeletes s.commands0 :=
  includeNonDeletes_markPushOptionsLimit _ _ _

/-- Claim C1 (counterexample): a push containing a hidden-ref rejection
whose pack unpacks successfully exits with code 0 even though one command's
status is `ng`. -/
theorem C1_exit_code_counterexample :
    execExitCode sessionHidden = 0 ∧
      (executeModel sessionHidden).finalCommands.map command.reportFF =
        ["ok".gs, "ng".gs] ∧
      (executeModel sessionHidden).report =
        ["unpack ok\n".gs, "ok refs/heads/new\n".gs,
          "ng refs/__hidden__/x deny updating a hidden ref\n".gs] := by
  refine ⟨rfl, by decide, by decide⟩

/-- Claim C1 (amended): once the session reaches the pack-intake phase, the
exit code is 0 iff the unpack step succeeded — i.e. iff there were no
commands at all, or every command was a delete (so no pack was read), or
`index-pack` succeeded; per-command `ng` statuses do not affect the exit
code. -/
theorem C1_exit_code (s : Session) :
    execExitCode s = 0 ↔
      (s.commands0 = [] ∨ includeNonDeletes s.commands0 = false ∨
        s.oracles.unpackErr = none) := by
  unfold execExitCode executeModel readPackResult
  by_cases h0 : s.commands0 = []
  · simp [h0]
  · rw [includeNonDeletes_marked]
    cases hIncl : includeNonDeletes s.commands0 <;>
      cases hU : s.oracles.unpackErr <;>
        simp [h0, hIncl, hU]

/-- Claim C2 (code bug): the `write-new-values` stage of
`performCheckConnectivity` feeds the new OID of EVERY command to
`rev-list --stdin` — including the null OID of a delete — instead of only
the new OIDs of the non-rejected non-delete commands that
`commandsForConnectivityCheck` selects. -/
theorem C2_connectivity_stdin_bug :
    connectivityCheckStdin cmdsUpdateDelete = [oidB, nullSHA1OID] ∧
      (commandsForConnectivityCheck cmdsUpdateDelete).map
          (fun c => c.newOID) = [oidB] ∧
      connectivityCheckStdin cmdsUpdateDelete ≠
        (commandsForConnectivityCheck cmdsUpdateDelete).map
          (fun c => c.newOID) ∧
      nullSHA1OID ∈ connectivityCheckStdin cmdsUpdateDelete := by
  refine ⟨rfl, by decide, by decide, by decide⟩

/-- Claim C8 (counterexample): a push consisting solely of a delete command
still performs `makeQuarantineDirs` (and only skips `index-pack`). -/
theorem C8_quarantine_counterexample :
    (executeModel sessionAllDelete).actions = [Action.makeQuarantineDirs] ∧
      Action.makeQuarantineDirs ∈ (executeModel sessionAllDelete).actions := by
  refine ⟨by decide, by decide⟩

/-- Claim C8 (amended): once commands have been read, the quarantine
directory is created unconditionally — also on an all-delete push — and it
is created before `index-pack`, which runs iff some command is a
non-delete. -/
theorem C8_quarantine (s : Session) (h : s.commands0 ≠ []) :
    (executeModel s).actions =
      Action.makeQuarantineDirs ::
        (if includeNonDeletes s.commands0 then [Action.runIndexPack]
          else []) := by
  unfold executeModel
  rw [if_neg h]
  have hact : executeActions s =
      Action.makeQuarantineDirs ::
        (if includeNonDeletes s.commands0 then [Action.runIndexPack]
          else []) := by
    unfold executeActions
    rw [includeNonDeletes_marked]
    rfl
  cases hR : readPackResult s.oracles (markedCommands s) <;> simpa using hact

/-- Witness for C8: the all-delete session has a nonempty command list, and
the theorem instantiates to its action trace. -/
theorem C8_quarantine_witness :
    (executeModel sessionAllDelete).actions =
      Action.makeQuarantineDirs ::
        (if includeNonDeletes sessionAllDelete.commands0 then
          [Action.runIndexPack] else []) :=
  C8_quarantine sessionAllDelete (by decide)

end Spokes

namespace Spokes

/-- A command whose error status is already set is left untouched by the
per-command adjustment loop. -/
theorem adjustCommand_of_err (o : Oracles) (ce rs : Bool) (c : command)
    (h : c.err ≠ []) : adjustCommand o ce rs c = c := by
  unfold adjustCommand
  rw [if_pos h]

theorem optionsTail_merge (r : GoStr) :
    "ng ".gs ++ r ++ " ".gs ++
        "push options count exceeds maximum".gs ++ "\n".gs =
      "ng ".gs ++ r ++ " push options count exceeds maximum\n".gs := by
  rw [List.append_assoc ("ng ".gs ++ r), List.append_assoc ("ng ".gs ++ r)]
  rfl

/-- Claim C9: when the client advertised push-options and the configured
count limit is positive and exceeded, every command is marked
`ng push options count exceeds maximum`, while the pack is still read
(`index-pack` runs after the quarantine directory is created) and, when it
succeeds, the report still opens with `unpack ok`. -/
theorem C9_push_options_limit (s : Session)
    (hdef : s.pushOptionsDefined = true)
    (hlim : 0 < s.optionsCountLimit)
    (hcnt : s.optionsCountLimit < s.pushOptionsCount)
    (hrep : s.reportStatus = true)
    (hunpack : s.oracles.unpackErr = none)
    (hnd : includeNonDeletes s.commands0 = true) :
    (executeModel s).actions =
        [Action.makeQuarantineDirs, Action.runIndexPack] ∧
      (executeModel s).report =
        "unpack ok\n".gs ::
          s.commands0.map (fun c =>
            "ng ".gs ++ c.refname ++
              " push options count exceeds maximum\n".gs) := by
  have h0 : s.commands0 ≠ [] := by
    intro h
    rw [h] at hnd
    simp [includeNonDeletes] at hnd
  have hmarked : markedCommands s =
      s.commands0.map (fun c =>
        { c with err := "push options count exceeds maximum".gs
                 reportFF := "ng".gs }) := by
    unfold markedCommands markPushOptionsLimit
    rw [hdef]
    rw [if_pos ⟨hlim, hcnt⟩]
  have herr : ("push options count exceeds maximum".gs : GoStr) ≠ [] := by
    decide
  have hpack : readPackResult s.oracles (markedCommands s) = none := by
    unfold readPackResult
    rw [includeNonDeletes_marked, hnd, if_pos rfl, hunpack]
  have hfinal : finalCommandsOK s = markedCommands s := by
    unfold finalCommandsOK
    rw [hmarked, List.map_map]
    refine List.map_congr_left ?_
    intro c _
    exact adjustCommand_of_err _ _ _ _ herr
  unfold executeModel
  rw [if_neg h0]
  rw [hpack]
  dsimp only
  constructor
  · unfold executeActions
    rw [includeNonDeletes_marked, hnd]
    rfl
  · rw [hrep, if_pos rfl, hfinal, hmarked]
    unfold writeReport
    have hif : (if true = true then ["unpack ok\n".gs]
        else ["unpack index-pack failed\n".gs]) = ["unpack ok\n".gs] := rfl
    rw [List.map_map, hif, List.singleton_append]
    refine congrArg _ ?_
    refine List.map_congr_left ?_
    intro c _
    simp only [Function.comp_apply]
    split_ifs with hc
    · exact optionsTail_merge c.refname
    · exact (herr (not_not.mp hc)).elim

/-- Witness for C9: the concrete over-limit session reports `unpack ok`
followed by the `ng` line for its single command, and still runs
`index-pack`. -/
theorem C9_push_options_limit_witness :
    (executeModel sessionOptions).actions =
        [Action.makeQuarantineDirs, Action.runIndexPack] ∧
      (executeModel sessionOptions).report =
        "unpack ok\n".gs ::
          sessionOptions.commands0.map (fun c =>
            "ng ".gs ++ c.refname ++
              " push options count exceeds maximum\n".gs) :=
  C9_push_options_limit sessionOptions rfl (by decide) (by decide) rfl rfl
    (by decide)

end Spokes
